import Mathlib

/-!
Verification of the goproxy caching example and basic-auth helper.

The decision engine lives in examples/goproxy-cache/cacher.go and the
authentication helper in ext/auth/basic.go.  The supporting types they use
(Resource, CacheControl, Cache, NewCacheRequest, NewResource, goproxy's
NewResponse) are declared in repository files that are not part of the
sources at hand; those are modelled from the specification and are marked
as such in their doc comments.  Go durations (time.Duration) are embedded
as integers counting nanoseconds.  log.Printf calls have no observable
effect on the values computed and are dropped.  Store and Freshen calls on
the persistence layer are recorded as explicit CacheOp values.
-/

/-- Go time.Duration: a signed count of nanoseconds. -/
abbrev Duration := Int

/-- time.Second in nanoseconds. -/
def second : Duration := 1000000000

/-- time.Hour in nanoseconds. -/
def timeHour : Duration := 3600 * second

/-- Header multi-map, as Go http.Header: names mapped to lists of values.
Keys are kept in canonical form by all callers, so no canonicalisation is
modelled. -/
abbrev Headers := List (String × List String)

/-- http.Header.Get: first value of the named header, or the empty string. -/
def Headers.Get (h : Headers) (k : String) : String :=
  match h.find? (fun p => p.1 == k) with
  | some (_, v :: _) => v
  | _ => ""

/-- textproto MIMEHeader.Add: append a value to the named header. -/
def Headers.Add (h : Headers) (k v : String) : Headers :=
  if h.any (fun p => p.1 == k) then
    h.map (fun p => if p.1 == k then (p.1, p.2 ++ [v]) else p)
  else h ++ [(k, [v])]

/-- textproto MIMEHeader.Set: replace the values of the named header. -/
def Headers.Set (h : Headers) (k v : String) : Headers :=
  if h.any (fun p => p.1 == k) then
    h.map (fun p => if p.1 == k then (p.1, [v]) else p)
  else h ++ [(k, [v])]

/-- http.Header.Del: remove the named header. -/
def Headers.Del (h : Headers) (k : String) : Headers :=
  h.filter (fun p => !(p.1 == k))

/-- The nested range loop of newResponseParameters: add every value of every
header of src into dst. -/
def Headers.addAll (dst src : Headers) : Headers :=
  src.foldl (fun acc kv => kv.2.foldl (fun a v => Headers.Add a kv.1 v) acc) dst

/-- ASCII whitespace, for the trimming done by Go strings.TrimSpace. -/
def isSpaceChar (c : Char) : Bool :=
  c == ' ' || c == '\t' || c == '\n' || c == '\r'

/-- Drop leading whitespace characters. -/
def trimLeftChars : List Char → List Char
  | [] => []
  | c :: cs => if isSpaceChar c then trimLeftChars cs else c :: cs

/-- Go strings.TrimSpace restricted to ASCII whitespace. -/
def trimStr (s : String) : String :=
  String.mk ((trimLeftChars ((trimLeftChars s.data).reverse)).reverse)

/-- Lower-case an ASCII letter. -/
def lowerChar (c : Char) : Char :=
  if 'A' ≤ c && c ≤ 'Z' then Char.ofNat (c.toNat + 32) else c

/-- Go strings.ToLower restricted to ASCII. -/
def lowerStr (s : String) : String :=
  String.mk (s.data.map lowerChar)

/-- Go strings.Split on a one-character separator (every separator used by
the engine is one character). -/
def splitCharAux (sep : Char) : List Char → List Char → List String
  | [], acc => [String.mk acc.reverse]
  | x :: xs, acc =>
    if x == sep then String.mk acc.reverse :: splitCharAux sep xs []
    else splitCharAux sep xs (x :: acc)

/-- Go strings.Split on a one-character separator. -/
def splitChar (s : String) (sep : Char) : List String :=
  splitCharAux sep s.data []

/-- Go strings.SplitN(s, sep, 2) on a one-character separator: at most two
pieces, the second carrying the remainder of the string. -/
def splitN2Aux (sep : Char) : List Char → List Char → List String
  | [], acc => [String.mk acc.reverse]
  | x :: xs, acc =>
    if x == sep then [String.mk acc.reverse, String.mk xs]
    else splitN2Aux sep xs (x :: acc)

/-- Go strings.SplitN(s, sep, 2) on a one-character separator. -/
def splitN2 (s : String) (sep : Char) : List String :=
  splitN2Aux sep s.data []

/-- Parse a non-empty run of decimal digits. -/
def digitsToNat : List Char → Nat → Option Nat
  | [], acc => some acc
  | c :: cs, acc =>
    if c.isDigit then digitsToNat cs (acc * 10 + (c.toNat - 48)) else none

/-- Parse a string of decimal digits as a natural number; fails on the
empty string and on any non-digit character. -/
def parseNatStr (s : String) : Option Nat :=
  match s.data with
  | [] => none
  | cs => digitsToNat cs 0

/-- Modelled from the spec: the Directive Set (section 4.1), whose Go
implementation is not under src/.  A mapping from directive name to the
list of its values; a boolean directive carries the empty list. -/
abbrev CacheControl := List (String × List String)

/-- Modelled from the spec: Has is true iff the directive token appears,
value ignored. -/
def CacheControl.Has (cc : CacheControl) (name : String) : Bool :=
  cc.any (fun p => p.1 == name)

/-- Go map indexing cc[name]: the value list, or the empty list when the
directive is absent. -/
def CacheControl.idx (cc : CacheControl) (name : String) : List String :=
  match cc.find? (fun p => p.1 == name) with
  | some (_, vs) => vs
  | none => []

/-- Modelled from the spec: Duration parses the directive value as integer
seconds and fails when the directive is absent, valueless, or non-numeric. -/
def CacheControl.Duration (cc : CacheControl) (name : String) : Except String Duration :=
  match cc.find? (fun p => p.1 == name) with
  | none => Except.error "MalformedDirective"
  | some (_, []) => Except.error "MalformedDirective"
  | some (_, v :: _) =>
    match parseNatStr v with
    | some n => Except.ok ((n : Int) * second)
    | none => Except.error "MalformedDirective"

/-- Models the Go call pattern maxStale, _ := cc.Duration(name): the value
returned alongside an error is the zero Duration.  Modelled from the spec,
since the Directive Set implementation is not under src/. -/
def durationOrZero (cc : CacheControl) (name : String) : Duration :=
  match cc.Duration name with
  | Except.ok d => d
  | Except.error _ => 0

/-- Body streams (io.ReadCloser values): an in-memory string buffer, as
built by BufferReadCloser, or a stream of unknown origin. -/
inductive RBody
  | buf (s : String)
  | ext (n : Nat)
deriving DecidableEq

/-- An inbound HTTP request, with the fields the engine reads. -/
structure Request where
  Method : String
  URL : String
  Header : Headers
  TransferEncoding : List String
  RemoteAddr : String
deriving DecidableEq

/-- The stored-representation abstraction.  Its Go type is produced by the
persistence layer and is not under src/; the engine only reads its derived
facts, which the model exposes as fields (spec section 3).  Age and MaxAge
may fail, as their Go counterparts return an error. -/
structure Resource where
  Status : Nat
  ContentLength : Int
  Header : Headers
  body : RBody
  Age : Except String Duration
  MaxAge : Bool → Except String Duration
  HeuristicFreshness : Duration
  IsStale : Bool
  MustValidate : Bool → Bool
  HasExplicitExpiration : Bool
  Via : String

/-- Modelled from the spec: strips user-specific headers from the resource
for the shared-cache path (section 3; the Go method is not under src/). -/
def Resource.RemovePrivateHeaders (r : Resource) : Resource :=
  { r with Header := (Headers.Del (Headers.Del r.Header "Set-Cookie") "Authorization") }

/-- Modelled from the spec: the Cache Key (section 3), a deterministic
identity for a method and URL, extendable with a variance identity derived
from the request headers named by Vary.  The Go type is not under src/. -/
structure Key where
  method : String
  url : String
  varyParts : List (String × String) := []
deriving DecidableEq

/-- Modelled from the spec: the Key String() serialisation.  Distinct
method, URL or variance parts give distinct strings. -/
def Key.toStr (k : Key) : String :=
  k.method ++ " " ++ k.url ++
    (match k.varyParts with
     | [] => ""
     | ps => "::" ++ String.intercalate ";" (ps.map (fun p => p.1 ++ "=" ++ p.2)))

/-- Modelled from the spec: ForMethod derives the key of the same URL under
another method. -/
def Key.ForMethod (k : Key) (m : String) : Key := { k with method := m }

/-- Modelled from the spec: Vary selects the request headers named in the
Vary header value, in the order listed, and serialises them into a
secondary key. -/
def Key.Vary (k : Key) (vary : String) (request : Request) : Key :=
  { k with varyParts := (splitChar vary ',').map (fun h => (trimStr h, request.Header.Get (trimStr h))) }

/-- The cacheRequest type of the engine: the original request, its method,
its primary key and its parsed directive set. -/
structure cacheRequest where
  Request : Request
  Method : String
  Key : Key
  CacheControl : CacheControl
deriving DecidableEq

/-- Modelled from the spec (section 4.2): cacheable only for GET and HEAD
without a request no-store directive.  The Go method is not under src/. -/
def cacheRequest.IsCacheable (r : cacheRequest) : Bool :=
  (r.Method == "GET" || r.Method == "HEAD") && !(r.CacheControl.Has "no-store")

/-- Modelled from the spec: parsing of one Cache-Control directive, name
case-insensitive and whitespace-tolerant (section 4.1). -/
def parseDirective (s : String) : Option (String × List String) :=
  let s := trimStr s
  if s = "" then none
  else
    match splitN2 s '=' with
    | [n] => some (lowerStr n, [])
    | [n, v] => some (lowerStr (trimStr n), [trimStr v])
    | _ => none

/-- Modelled from the spec: parse a Cache-Control header line into the
Directive Set; an unparseable directive is dropped, never fatal. -/
def ParseCacheControl (h : String) : CacheControl :=
  (splitChar h ',').filterMap parseDirective

/-- Modelled from the spec: NewCacheRequest builds the cacheRequest of an
inbound request (section 3).  The Go constructor is not under src/; the
model always succeeds, keeping the fallible shape its callers check. -/
def NewCacheRequest (request : Request) : Except String cacheRequest :=
  Except.ok
    { Request := request
      Method := request.Method
      Key := { method := request.Method, url := request.URL }
      CacheControl := ParseCacheControl (request.Header.Get "Cache-Control") }

/-- The distinguished not-found condition of the persistence layer, and
other retrieval failures. -/
inductive CacheErr
  | notFound
  | failure (msg : String)
deriving DecidableEq

/-- ErrNotFoundInCache of the persistence layer. -/
def ErrNotFoundInCache : CacheErr := CacheErr.notFound

/-- Modelled from the spec: the consumed persistence interface (section 6).
Only Retrieve influences the values computed; Store and Freshen effects are
recorded as CacheOp values by the embedding. -/
structure Cache where
  Retrieve : String → Except CacheErr Resource

/-- A Store or Freshen effect issued against the persistence layer. -/
inductive CacheOp
  | store (r : Resource) (keys : List String)
  | freshen (r : Resource) (key : String)

-- freshness returns the duration that a requested resource will be fresh for
def freshness (shared : Bool) (resource : Resource) (cacheRequest : cacheRequest) :
    Except String Duration :=
  match resource.MaxAge shared with
  | Except.error err => Except.error err
  | Except.ok maxAge =>
    let step : Except String Duration :=
      if cacheRequest.CacheControl.Has "max-age" then
        match cacheRequest.CacheControl.Duration "max-age" with
        | Except.error err => Except.error err
        | Except.ok reqMaxAge =>
          Except.ok (if reqMaxAge < maxAge then reqMaxAge else maxAge)
      else Except.ok maxAge
    match step with
    | Except.error err => Except.error err
    | Except.ok maxAge =>
      match resource.Age with
      | Except.error err => Except.error err
      | Except.ok age =>
        if resource.IsStale then Except.ok 0
        else
          let maxAge := if resource.HeuristicFreshness > maxAge then resource.HeuristicFreshness else maxAge
          Except.ok (maxAge - age)

/-- The tail of needsValidation after the min-fresh block: the max-stale
block followed by the final return of freshness <= 0. -/
def needsValidationRest (f : Duration) (cacheRequest : cacheRequest) : Bool :=
  if decide (f ≤ 0) && cacheRequest.CacheControl.Has "max-stale" then
    if (cacheRequest.CacheControl.idx "max-stale").length == 0 then false
    else if decide (durationOrZero cacheRequest.CacheControl "max-stale" ≥ f * -1) then false
    else decide (f ≤ 0)
  else decide (f ≤ 0)

def needsValidation (shared : Bool) (resource : Resource) (cacheRequest : cacheRequest) : Bool :=
  if resource.MustValidate shared then true
  else
    match freshness shared resource cacheRequest with
    | Except.error _ => true
    | Except.ok f =>
      if cacheRequest.CacheControl.Has "min-fresh" then
        match cacheRequest.CacheControl.Duration "min-fresh" with
        | Except.error _ => true
        | Except.ok reqMinFresh =>
          if decide (f < reqMinFresh) then true
          else needsValidationRest f cacheRequest
      else needsValidationRest f cacheRequest

/-- An outgoing HTTP response, with the fields the engine writes. -/
structure Response where
  StatusCode : Nat
  ContentLength : Int
  Header : Headers
  Body : RBody
  Request : Request
  TransferEncoding : List String
deriving DecidableEq

/-- goproxy.ContentTypeText. -/
def ContentTypeText : String := "text/plain"

/-- Modelled from the spec: goproxy.NewResponse, the interception layer
constructor for a synthesized response with a plain-text body (section 6);
its Go source is part of the repository but not under src/. -/
def goproxyNewResponse (request : Request) (contentType : String) (status : Nat)
    (body : String) : Response :=
  { StatusCode := status
    ContentLength := (body.length : Int)
    Header := [("Content-Type", [contentType])]
    Body := RBody.buf body
    Request := request
    TransferEncoding := [] }

/-- Go fmt.Sprintf with math.Floor of age.Seconds(): the floor of the age
in whole seconds, printed without decimals. -/
def formatAgeSeconds (age : Duration) : String :=
  toString (Int.fdiv age second)

def lookup (cache : Cache) (cacheRequest : cacheRequest) : Except CacheErr Resource :=
  let cacheKey := cacheRequest.Key.toStr
  match cache.Retrieve cacheKey with
  | Except.error CacheErr.notFound =>
    -- HEAD requests can possibly be served from GET
    if cacheRequest.Method == "HEAD" then
      match cache.Retrieve ((cacheRequest.Key.ForMethod "GET").toStr) with
      | Except.error e => Except.error e
      | Except.ok resource =>
        if resource.HasExplicitExpiration && cacheRequest.IsCacheable then Except.ok resource
        else Except.error ErrNotFoundInCache
    else Except.error CacheErr.notFound
  | Except.error e => Except.error e
  | Except.ok resource =>
    -- Secondary lookup for Vary
    if resource.Header.Get "Vary" != "" then
      cache.Retrieve ((cacheRequest.Key.Vary (resource.Header.Get "Vary") cacheRequest.Request).toStr)
    else Except.ok resource

def newResponseParameters (shared : Bool) (cacheRequest : cacheRequest) (resource : Resource) :
    Except String (Nat × Int × Headers × Resource) :=
  match resource.Age with
  | Except.error err => Except.error err
  | Except.ok age =>
    let contentLength := resource.ContentLength
    let statusCode := resource.Status
    -- headers := make(http.Header) followed by the copy loop
    let headers := Headers.addAll [] resource.Header
    let headers :=
      if decide (age > timeHour * 24) && decide (resource.HeuristicFreshness > timeHour * 24) then
        headers.Add "Warning" "113 - \"Heuristic Expiration\""
      else headers
    let headers :=
      match freshness shared resource cacheRequest with
      | Except.error _ => headers.Add "Warning" "110 - \"Response is Stale\""
      | Except.ok f =>
        if decide (f ≤ 0) then headers.Add "Warning" "110 - \"Response is Stale\""
        else headers
    let headers := headers.Set "Age" (formatAgeSeconds age)
    let headers := headers.Set "Via" resource.Via
    -- the source returns the resource itself as the body ReadCloser
    Except.ok (statusCode, contentLength, headers, resource)

def newResponse (request : Request) (statusCode : Nat) (contentLength : Int)
    (headers : Headers) (body : Resource) : Response :=
  { Request := request
    TransferEncoding := request.TransferEncoding
    Header := headers
    ContentLength := contentLength
    StatusCode := statusCode
    -- on HEAD or a non-200 status the body stream is closed and replaced
    -- with an empty buffer; otherwise the resource stream is the body
    Body := if request.Method == "HEAD" || statusCode != 200 then RBody.buf "" else body.body }

def newCachedResponse (shared : Bool) (cacheRequest : cacheRequest) (resource : Resource) :
    Response :=
  match newResponseParameters shared cacheRequest resource with
  | Except.error err =>
    goproxyNewResponse cacheRequest.Request ContentTypeText 500 ("Error calculating age: " ++ err)
  | Except.ok (statusCode, contentLength, headers, body) =>
    newResponse cacheRequest.Request statusCode contentLength headers body

/-- Modelled from the spec: NewResource wraps an origin response into a
fresh stored representation (section 3).  The Go constructor and the
derivation of the timing facts from timestamps live in the persistence
layer, which is not under src/; the model takes a just-generated
representation: age zero, no staleness mark, facts read off the headers it
was given.  No claim is decided by these derived values. -/
def NewResource (statusCode : Nat) (contentLength : Int) (body : RBody) (headers : Headers) :
    Resource :=
  { Status := statusCode
    ContentLength := contentLength
    Header := headers
    body := body
    Age := Except.ok 0
    MaxAge := fun _ => Except.ok (durationOrZero (ParseCacheControl (headers.Get "Cache-Control")) "max-age")
    HeuristicFreshness := 0
    IsStale := false
    MustValidate := fun _ => (ParseCacheControl (headers.Get "Cache-Control")).Has "must-revalidate"
    HasExplicitExpiration :=
      (headers.Get "Expires" != "") ||
        (ParseCacheControl (headers.Get "Cache-Control")).Has "max-age"
    Via := "1.1 goproxy" }

def newCacheAndForwardResponse (shared : Bool) (cache : Cache) (res : Resource)
    (cacheRequest : cacheRequest) (response : Response) : Response × List CacheOp :=
  let statusCode := response.StatusCode
  let contentLength := response.ContentLength
  let body := response.Body
  let headers := response.Header
  let keys := [cacheRequest.Key.toStr]
  -- store a secondary vary version
  let keys :=
    if headers.Get "Vary" != "" then
      keys ++ [(cacheRequest.Key.Vary (headers.Get "Vary") cacheRequest.Request).toStr]
    else keys
  -- cache.Store(res, keys...): res is a package-level variable declared in
  -- a sibling file not under src/, passed here as the res parameter; a
  -- failed store is only logged
  let ops := [CacheOp.store res keys]
  let resource := NewResource statusCode contentLength body headers
  let resource := if shared then resource.RemovePrivateHeaders else resource
  match newResponseParameters shared cacheRequest resource with
  | Except.error _ => (response, ops)
  | Except.ok (statusCode, contentLength, headers, body) =>
    (newResponse cacheRequest.Request statusCode contentLength headers body, ops)

def TryServeCachedResponse (shared : Bool) (cache : Cache) (request : Request) :
    Request × Option Response :=
  match NewCacheRequest request with
  | Except.error err =>
    (request, some (goproxyNewResponse request ContentTypeText 500 err))
  | Except.ok cacheRequest =>
    if !cacheRequest.IsCacheable then (request, none)
    else
      match lookup cache cacheRequest with
      | Except.error (CacheErr.failure msg) =>
        (request, some (goproxyNewResponse request ContentTypeText 500 msg))
      | Except.error CacheErr.notFound =>
        if cacheRequest.CacheControl.Has "only-if-cached" then
          (request, some (goproxyNewResponse request ContentTypeText 504 "key not in cache"))
        else (request, none)
      | Except.ok resource =>
        if needsValidation shared resource cacheRequest then
          if cacheRequest.CacheControl.Has "only-if-cached" then
            (request, some (goproxyNewResponse request ContentTypeText 504 "key not in cache"))
          else (request, none)
        else (request, some (newCachedResponse shared cacheRequest resource))

/-- In the source the 200 branch compares the nil error of the successful
NewCacheRequest call against ErrNotFoundInCache; nil is never
ErrNotFoundInCache, so the comparison always holds. -/
def nilErrIsNotErrNotFoundInCache : Bool := true

def TryCacheResponse (shared : Bool) (cache : Cache) (res : Resource) (response : Response) :
    Response × List CacheOp :=
  if response.StatusCode != 200 || response.StatusCode != 304 then
    (response, [])
  else
    match NewCacheRequest response.Request with
    | Except.error err =>
      (goproxyNewResponse response.Request ContentTypeText 500 err, [])
    | Except.ok cacheRequest =>
      if !cacheRequest.IsCacheable then (response, [])
      else if response.StatusCode == 304 then
        match lookup cache cacheRequest with
        | Except.error CacheErr.notFound => (response, [])
        | Except.error (CacheErr.failure msg) =>
          (goproxyNewResponse response.Request ContentTypeText 500 msg, [])
        | Except.ok resource =>
          (newCachedResponse shared cacheRequest resource,
            [CacheOp.freshen resource ((cacheRequest.Key.ForMethod "GET").toStr)])
      else if response.StatusCode == 200 then
        if nilErrIsNotErrNotFoundInCache then (response, [])
        else newCacheAndForwardResponse shared cache res cacheRequest response
      else (response, [])

/-- The external authenticator contract of ext/auth/basic.go. -/
def AuthWithAddrFunc := String → String → String → String × String × String × Bool

def proxyAuthorizationHeader : String := "Proxy-Authorization"

/-- The auth helper of ext/auth/basic.go.  base64.StdEncoding.DecodeString
is Go standard library code, external to the repository, and is passed in
as the decodeBase64 parameter (returning none on a decoding error). -/
def auth (req : Request) (decodeBase64 : String → Option String) (f : AuthWithAddrFunc) :
    Request × (String × String × String × Bool) :=
  let authheader := splitN2 (req.Header.Get proxyAuthorizationHeader) ' '
  let req := { req with Header := req.Header.Del proxyAuthorizationHeader }
  if authheader.length != 2 || authheader.getD 0 "" != "Basic" then
    (req, ("", "", "", false))
  else
    match decodeBase64 (authheader.getD 1 "") with
    | none => (req, ("", "", "", false))
    | some userpassraw =>
      let userpass := splitN2 userpassraw ':'
      if userpass.length != 2 then (req, ("", "", "", false))
      else (req, f req.RemoteAddr (userpass.getD 0 "") (userpass.getD 1 ""))

/-- A heap of http.Header cells.  Go header maps are mutable reference
values; this heap makes allocation and in-place mutation explicit, for the
frame property of newResponseParameters. -/
abbrev HHeap := List Headers

/-- Dereference a header-map cell. -/
def HHeap.read (h : HHeap) (r : Nat) : Headers := h.getD r []

/-- Allocate a fresh header-map cell, as make(http.Header). -/
def HHeap.alloc (h : HHeap) (m : Headers) : HHeap × Nat := (h ++ [m], h.length)

/-- Mutate a header-map cell in place. -/
def HHeap.write (h : HHeap) (r : Nat) (m : Headers) : HHeap := h.set r m

/-- newResponseParameters rendered over the header-map heap: the header map
of the resource is the cell at hdrRef, make(http.Header) is an allocation,
and every textproto Add or Set is a write to the allocated cell.  Returns
the final heap and the reference of the header map handed to the caller. -/
def newResponseParametersH (shared : Bool) (cacheRequest : cacheRequest) (resource : Resource)
    (hp : HHeap) (hdrRef : Nat) : Except String (HHeap × Nat) :=
  match resource.Age with
  | Except.error err => Except.error err
  | Except.ok age =>
    -- headers := make(http.Header)
    let p := hp.alloc []
    let hp1 := p.1
    let j := p.2
    -- the nested copy loop reads the resource cell and adds into the new cell
    let hp2 := hp1.write j (Headers.addAll (hp1.read j) (hp1.read hdrRef))
    let hp3 :=
      if decide (age > timeHour * 24) && decide (resource.HeuristicFreshness > timeHour * 24) then
        hp2.write j ((hp2.read j).Add "Warning" "113 - \"Heuristic Expiration\"")
      else hp2
    let hp4 :=
      match freshness shared resource cacheRequest with
      | Except.error _ => hp3.write j ((hp3.read j).Add "Warning" "110 - \"Response is Stale\"")
      | Except.ok f =>
        if decide (f ≤ 0) then hp3.write j ((hp3.read j).Add "Warning" "110 - \"Response is Stale\"")
        else hp3
    let hp5 := hp4.write j ((hp4.read j).Set "Age" (formatAgeSeconds age))
    let hp6 := hp5.write j ((hp5.read j).Set "Via" resource.Via)
    Except.ok (hp6, j)

/-! Concrete values used by the witness theorems. -/

def exReqPlain : Request :=
  { Method := "GET"
    URL := "http://example.com/x"
    Header := []
    TransferEncoding := []
    RemoteAddr := "10.0.0.1:1234" }

def exCRPlain : cacheRequest :=
  { Request := exReqPlain
    Method := "GET"
    Key := { method := "GET", url := "http://example.com/x" }
    CacheControl := [] }

def exResMustValidate : Resource :=
  { Status := 200
    ContentLength := 0
    Header := []
    body := RBody.buf ""
    Age := Except.ok (10 * second)
    MaxAge := fun _ => Except.ok (60 * second)
    HeuristicFreshness := 0
    IsStale := false
    MustValidate := fun _ => true
    HasExplicitExpiration := true
    Via := "1.1 goproxy" }

def exResp200 : Response :=
  { StatusCode := 200
    ContentLength := 5
    Header := [("Cache-Control", ["max-age=60"])]
    Body := RBody.buf "hello"
    Request := exReqPlain
    TransferEncoding := [] }

def exCacheEmpty : Cache := { Retrieve := fun _ => Except.error CacheErr.notFound }

def wRes4 : Resource :=
  { Status := 200
    ContentLength := 0
    Header := []
    body := RBody.buf ""
    Age := Except.ok (10 * second)
    MaxAge := fun _ => Except.ok 0
    HeuristicFreshness := 0
    IsStale := false
    MustValidate := fun _ => false
    HasExplicitExpiration := true
    Via := "1.1 goproxy" }

def wCR4 : cacheRequest :=
  { Request := exReqPlain
    Method := "GET"
    Key := { method := "GET", url := "http://example.com/x" }
    CacheControl := [("max-stale", ["5"])] }

def cRes5 : Resource :=
  { Status := 200
    ContentLength := 0
    Header := []
    body := RBody.buf ""
    Age := Except.ok 0
    MaxAge := fun _ => Except.ok (100 * second)
    HeuristicFreshness := 200 * second
    IsStale := false
    MustValidate := fun _ => false
    HasExplicitExpiration := true
    Via := "1.1 goproxy" }

def cCR5 : cacheRequest :=
  { Request := exReqPlain
    Method := "GET"
    Key := { method := "GET", url := "http://example.com/x" }
    CacheControl := [("max-age", ["50"])] }

def wRes5 : Resource :=
  { Status := 200
    ContentLength := 0
    Header := []
    body := RBody.buf ""
    Age := Except.ok (10 * second)
    MaxAge := fun _ => Except.ok (100 * second)
    HeuristicFreshness := 0
    IsStale := false
    MustValidate := fun _ => false
    HasExplicitExpiration := true
    Via := "1.1 goproxy" }

def wRes8 : Resource :=
  { Status := 200
    ContentLength := 0
    Header := []
    body := RBody.buf ""
    Age := Except.ok (10 * second)
    MaxAge := fun _ => Except.ok (60 * second)
    HeuristicFreshness := 0
    IsStale := false
    MustValidate := fun _ => false
    HasExplicitExpiration := true
    Via := "1.1 goproxy" }

def wReq6 : Request :=
  { Method := "GET"
    URL := "http://example.com/y"
    Header := [("Cache-Control", ["only-if-cached"])]
    TransferEncoding := []
    RemoteAddr := "10.0.0.1:1234" }

def wCache6 : Cache := { Retrieve := fun _ => Except.error CacheErr.notFound }

def wCR6 : cacheRequest :=
  { Request := wReq6
    Method := "GET"
    Key := { method := "GET", url := "http://example.com/y" }
    CacheControl := [("only-if-cached", [])] }

def wRes7 : Resource :=
  { Status := 200
    ContentLength := 3
    Header := []
    body := RBody.buf "abc"
    Age := Except.ok 0
    MaxAge := fun _ => Except.ok (60 * second)
    HeuristicFreshness := 0
    IsStale := false
    MustValidate := fun _ => false
    HasExplicitExpiration := true
    Via := "1.1 goproxy" }

def wCache7 : Cache :=
  { Retrieve := fun k =>
      if k == "GET http://example.com/z" then Except.ok wRes7
      else Except.error CacheErr.notFound }

def wCR7 : cacheRequest :=
  { Request := { Method := "HEAD"
                 URL := "http://example.com/z"
                 Header := []
                 TransferEncoding := []
                 RemoteAddr := "10.0.0.1:1234" }
    Method := "HEAD"
    Key := { method := "HEAD", url := "http://example.com/z" }
    CacheControl := [] }

def wHeap9 : HHeap := [[("X-Test", ["1"])]]

def wRes9 : Resource :=
  { Status := 200
    ContentLength := 0
    Header := [("X-Test", ["1"])]
    body := RBody.buf ""
    Age := Except.ok 0
    MaxAge := fun _ => Except.ok (60 * second)
    HeuristicFreshness := 0
    IsStale := false
    MustValidate := fun _ => false
    HasExplicitExpiration := true
    Via := "1.1 goproxy" }

def wOut9 : HHeap × Nat :=
  match newResponseParametersH true exCRPlain wRes9 wHeap9 0 with
  | Except.ok p => p
  | Except.error _ => ([], 0)

/-! Theorems for the claims. -/

/-- Claim C2: the initial status guard of TryCacheResponse is true for
every status code, since no status equals both 200 and 304, so the
function always returns its response argument unchanged and issues no
Store or Freshen call. -/
theorem tryCacheResponse_returns_response_unchanged (shared : Bool) (cache : Cache)
    (res : Resource) (response : Response) :
    TryCacheResponse shared cache res response = (response, []) := by
  unfold TryCacheResponse
  have h : (response.StatusCode != 200 || response.StatusCode != 304) = true := by
    by_cases h2 : response.StatusCode = 200
    · simp [h2]
    · simp [h2]
  rw [h]
  simp

/-- Claim C1: for a cacheable origin response with status 200 the
specification requires TryCacheResponse to wrap, store and reconstruct,
but the initial guard returns every response unchanged with no store
issued; evaluated here at a concrete 200 response whose request is
cacheable. -/
theorem tryCacheResponse_200_passthrough_bug :
    TryCacheResponse true exCacheEmpty exResMustValidate exResp200 = (exResp200, []) := rfl

/-- Claim C3: whenever the resource carries an explicit validation mandate,
needsValidation returns true for every cache request, regardless of
freshness or client directives. -/
theorem needsValidation_mustValidate_true (shared : Bool) (resource : Resource)
    (cacheRequest : cacheRequest) (h : resource.MustValidate shared = true) :
    needsValidation shared resource cacheRequest = true := by
  unfold needsValidation
  rw [h]
  simp

theorem needsValidation_mustValidate_true_witness :
    needsValidation true exResMustValidate exCRPlain = true :=
  needsValidation_mustValidate_true true exResMustValidate exCRPlain rfl

/-- A directive whose Duration parses is present in the set. -/
theorem has_of_duration_ok (cc : CacheControl) (name : String) (d : Duration)
    (h : cc.Duration name = Except.ok d) : cc.Has name = true := by
  unfold CacheControl.Duration at h
  unfold CacheControl.Has
  cases hf : cc.find? (fun p => p.1 == name) with
  | none => rw [hf] at h; exact absurd h (by simp)
  | some x =>
    have hmem := List.mem_of_find?_eq_some hf
    have hp := List.find?_some hf
    exact List.any_eq_true.mpr ⟨x, hmem, hp⟩

/-- A directive whose Duration parses carries at least one value. -/
theorem idx_ne_nil_of_duration_ok (cc : CacheControl) (name : String) (d : Duration)
    (h : cc.Duration name = Except.ok d) : cc.idx name ≠ [] := by
  unfold CacheControl.Duration at h
  unfold CacheControl.idx
  cases hf : cc.find? (fun p => p.1 == name) with
  | none => rw [hf] at h; exact absurd h (by simp)
  | some x =>
    rw [hf] at h
    obtain ⟨nm, vs⟩ := x
    cases vs with
    | nil => exact absurd h (by simp)
    | cons v vs => simp

/-- The value carried alongside a successful Duration parse. -/
theorem durationOrZero_eq_of_ok (cc : CacheControl) (name : String) (d : Duration)
    (h : cc.Duration name = Except.ok d) : durationOrZero cc name = d := by
  unfold durationOrZero
  rw [h]

/-- Claim C4: with no validation mandate, a freshness that computes to a
non-positive value and no min-fresh directive, needsValidation is false
when the request carries max-stale without a value, false when it carries
max-stale with a value at least the magnitude of the negative freshness
(non-strict, so the exact boundary also yields false), and true otherwise:
with a parsed max-stale value below that magnitude or with no max-stale at
all. -/
theorem needsValidation_maxStale_cases (shared : Bool) (resource : Resource)
    (cacheRequest : cacheRequest) (f d : Duration)
    (hmv : resource.MustValidate shared = false)
    (hf : freshness shared resource cacheRequest = Except.ok f)
    (hle : f ≤ 0)
    (hnomf : cacheRequest.CacheControl.Has "min-fresh" = false) :
    (cacheRequest.CacheControl.Has "max-stale" = true →
        cacheRequest.CacheControl.idx "max-stale" = [] →
        needsValidation shared resource cacheRequest = false)
    ∧ (cacheRequest.CacheControl.Duration "max-stale" = Except.ok d → f * -1 ≤ d →
        needsValidation shared resource cacheRequest = false)
    ∧ (cacheRequest.CacheControl.Has "max-stale" = false →
        needsValidation shared resource cacheRequest = true)
    ∧ (cacheRequest.CacheControl.Duration "max-stale" = Except.ok d → d < f * -1 →
        needsValidation shared resource cacheRequest = true) := by
  have hnv : needsValidation shared resource cacheRequest = needsValidationRest f cacheRequest := by
    unfold needsValidation
    rw [hmv, hf, hnomf]
    simp
  refine ⟨?_, ?_, ?_, ?_⟩
  · intro h1 h2
    rw [hnv]
    unfold needsValidationRest
    simp [h1, h2, hle]
  · intro hd hge
    have hhas := has_of_duration_ok _ _ _ hd
    have hne := idx_ne_nil_of_duration_ok _ _ _ hd
    have hdz := durationOrZero_eq_of_ok _ _ _ hd
    rw [hnv]
    unfold needsValidationRest
    simp [hhas, hle, hdz, hne, List.length_eq_zero]
    rw [mul_neg_one] at hge
    exact hge
  · intro h3
    rw [hnv]
    unfold needsValidationRest
    simp [h3, hle]
  · intro hd hlt2
    have hhas := has_of_duration_ok _ _ _ hd
    have hne := idx_ne_nil_of_duration_ok _ _ _ hd
    have hdz := durationOrZero_eq_of_ok _ _ _ hd
    rw [hnv]
    unfold needsValidationRest
    simp [hhas, hle, hdz, hne, List.length_eq_zero]
    rw [mul_neg_one] at hlt2
    exact hlt2

theorem needsValidation_maxStale_cases_witness :
    (wCR4.CacheControl.Has "max-stale" = true →
        wCR4.CacheControl.idx "max-stale" = [] →
        needsValidation true wRes4 wCR4 = false)
    ∧ (wCR4.CacheControl.Duration "max-stale" = Except.ok (5 * second) →
        -(10 * second) * -1 ≤ 5 * second →
        needsValidation true wRes4 wCR4 = false)
    ∧ (wCR4.CacheControl.Has "max-stale" = false →
        needsValidation true wRes4 wCR4 = true)
    ∧ (wCR4.CacheControl.Duration "max-stale" = Except.ok (5 * second) →
        5 * second < -(10 * second) * -1 →
        needsValidation true wRes4 wCR4 = true) :=
  needsValidation_maxStale_cases true wRes4 wCR4 (-(10 * second)) (5 * second)
    rfl (by rfl) (by decide) rfl

/-- Claim C10: auth deletes the Proxy-Authorization header from the
request before any credential check, so on every outcome the credential
header is gone from the request. -/
theorem auth_deletes_proxy_authorization (req : Request)
    (decodeBase64 : String → Option String) (f : AuthWithAddrFunc) :
    (auth req decodeBase64 f).1.Header = req.Header.Del proxyAuthorizationHeader := by
  unfold auth
  dsimp only
  split
  · rfl
  · split
    · rfl
    · split
      · rfl
      · rfl

/-- Claim C8 is false as stated: this resource has origin max-age 60s and
age 10s with 10s < 60s, the cacheRequest carries no Cache-Control
directives, yet needsValidation returns true, because the resource also
carries a must-revalidate mandate. -/
theorem needsValidation_fresh_counterexample :
    exResMustValidate.MaxAge true = Except.ok (60 * second)
    ∧ exResMustValidate.Age = Except.ok (10 * second)
    ∧ (10 * second : Duration) < 60 * second
    ∧ exCRPlain.CacheControl = []
    ∧ needsValidation true exResMustValidate exCRPlain = true :=
  ⟨rfl, rfl, by decide, rfl, rfl⟩

/-- Claim C8 (amended): a resource whose origin max-age M and age A compute
successfully with A < M, which carries no validation mandate and no
staleness mark, needs no validation under a cacheRequest with no
Cache-Control directives. -/
theorem needsValidation_fresh_no_directives_false (shared : Bool) (resource : Resource)
    (cacheRequest : cacheRequest) (M A : Duration)
    (hmv : resource.MustValidate shared = false)
    (hst : resource.IsStale = false)
    (hma : resource.MaxAge shared = Except.ok M)
    (hage : resource.Age = Except.ok A)
    (hlt : A < M)
    (hcc : cacheRequest.CacheControl = []) :
    needsValidation shared resource cacheRequest = false := by
  have hhas : ∀ name, cacheRequest.CacheControl.Has name = false := by
    intro name
    rw [hcc]
    rfl
  have hf : freshness shared resource cacheRequest =
      Except.ok ((if resource.HeuristicFreshness > M then resource.HeuristicFreshness else M) - A) := by
    unfold freshness
    rw [hma]
    simp [hhas, hage, hst]
  have hpos : 0 < (if resource.HeuristicFreshness > M then resource.HeuristicFreshness else M) - A := by
    split
    · linarith
    · linarith
  unfold needsValidation
  rw [hmv, hf]
  simp [hhas, needsValidationRest]
  linarith

theorem needsValidation_fresh_no_directives_false_witness :
    needsValidation true wRes8 exCRPlain = false :=
  needsValidation_fresh_no_directives_false true wRes8 exCRPlain (60 * second) (10 * second)
    rfl rfl rfl rfl (by decide) rfl

/-- Claim C5 is false as stated: the request max-age of 50s parses and is
smaller than the origin max-age of 100s and the resource is not stale, yet
the heuristic freshness of 200s replaces the tightened max-age, and the
returned freshness of 200s exceeds 50s minus the age 0. -/
theorem freshness_reqMaxAge_counterexample :
    cCR5.CacheControl.Duration "max-age" = Except.ok (50 * second)
    ∧ cRes5.MaxAge true = Except.ok (100 * second)
    ∧ (50 * second : Duration) < 100 * second
    ∧ cRes5.IsStale = false
    ∧ cRes5.Age = Except.ok 0
    ∧ freshness true cRes5 cCR5 = Except.ok (200 * second)
    ∧ ¬((200 * second : Duration) ≤ 50 * second - 0) :=
  ⟨rfl, rfl, by decide, rfl, rfl, rfl, by decide⟩

/-- Claim C5 (amended): for a non-stale resource and a cacheRequest whose
max-age directive parses to a value d smaller than the origin max-age, d
becomes the effective max-age unless the heuristic freshness of the
resource exceeds it, in which case the heuristic replaces it; the returned
freshness therefore never exceeds the maximum of d and the heuristic
freshness, minus the age. -/
theorem freshness_reqMaxAge_heuristic_bound (shared : Bool) (resource : Resource)
    (cacheRequest : cacheRequest) (d M A f : Duration)
    (hst : resource.IsStale = false)
    (hd : cacheRequest.CacheControl.Duration "max-age" = Except.ok d)
    (hma : resource.MaxAge shared = Except.ok M)
    (hlt : d < M)
    (hage : resource.Age = Except.ok A)
    (hf : freshness shared resource cacheRequest = Except.ok f) :
    f ≤ max d resource.HeuristicFreshness - A := by
  have hhas := has_of_duration_ok _ _ _ hd
  unfold freshness at hf
  rw [hma] at hf
  simp [hhas, hd, hage, hst, hlt] at hf
  rcases le_or_lt resource.HeuristicFreshness d with h | h
  · rw [if_neg (not_lt.mpr h)] at hf
    rw [max_eq_left h]
    linarith
  · rw [if_pos h] at hf
    rw [max_eq_right (le_of_lt h)]
    linarith

theorem freshness_reqMaxAge_heuristic_bound_witness :
    (40 * second : Duration) ≤ max (50 * second) (0 : Duration) - 10 * second :=
  freshness_reqMaxAge_heuristic_bound true wRes5 cCR5 (50 * second) (100 * second)
    (10 * second) (40 * second) rfl rfl rfl (by decide) rfl rfl

/-- Claim C6: when the cacheRequest carries only-if-cached and the lookup
misses with ErrNotFoundInCache or the found resource needs validation,
TryServeCachedResponse returns a synthesized 504 Gateway Timeout with
plain-text body "key not in cache" instead of forwarding the request. -/
theorem tryServeCachedResponse_onlyIfCached_504 (shared : Bool) (cache : Cache)
    (request : Request) (cr : cacheRequest)
    (hreq : NewCacheRequest request = Except.ok cr)
    (hc : cr.IsCacheable = true)
    (ho : cr.CacheControl.Has "only-if-cached" = true)
    (hmiss : lookup cache cr = Except.error CacheErr.notFound ∨
      ∃ r, lookup cache cr = Except.ok r ∧ needsValidation shared r cr = true) :
    TryServeCachedResponse shared cache request =
      (request, some (goproxyNewResponse request ContentTypeText 504 "key not in cache")) := by
  unfold TryServeCachedResponse
  rw [hreq]
  rcases hmiss with h | ⟨r, hr, hv⟩
  · simp [hc, h, ho]
  · simp [hc, hr, hv, ho]

theorem tryServeCachedResponse_onlyIfCached_504_witness :
    TryServeCachedResponse true wCache6 wReq6 =
      (wReq6, some (goproxyNewResponse wReq6 ContentTypeText 504 "key not in cache")) :=
  tryServeCachedResponse_onlyIfCached_504 true wCache6 wReq6 wCR6 rfl rfl rfl (Or.inl rfl)

/-- Claim C7: for a HEAD cacheRequest whose primary key misses, lookup
falls back to the GET variant key; a resource is returned only when it is
the GET-stored one and has explicit expiration, a GET resource without
explicit expiration is reported as ErrNotFoundInCache, and an absent GET
key propagates the miss. -/
theorem lookup_head_falls_back_to_get (cache : Cache) (cr : cacheRequest) (r : Resource)
    (hm : cr.Method = "HEAD")
    (hp : cache.Retrieve cr.Key.toStr = Except.error CacheErr.notFound) :
    (lookup cache cr = Except.ok r →
        cache.Retrieve ((cr.Key.ForMethod "GET").toStr) = Except.ok r
          ∧ r.HasExplicitExpiration = true)
    ∧ (cache.Retrieve ((cr.Key.ForMethod "GET").toStr) = Except.ok r →
        r.HasExplicitExpiration = false →
        lookup cache cr = Except.error CacheErr.notFound)
    ∧ (cache.Retrieve ((cr.Key.ForMethod "GET").toStr) = Except.error CacheErr.notFound →
        lookup cache cr = Except.error CacheErr.notFound) := by
  have hl : lookup cache cr =
      match cache.Retrieve ((cr.Key.ForMethod "GET").toStr) with
      | Except.error e => Except.error e
      | Except.ok resource =>
        if resource.HasExplicitExpiration && cr.IsCacheable then Except.ok resource
        else Except.error ErrNotFoundInCache := by
    unfold lookup
    dsimp only
    rw [hp, hm]
    rfl
  refine ⟨?_, ?_, ?_⟩
  · intro hok
    rw [hl] at hok
    cases hg : cache.Retrieve ((cr.Key.ForMethod "GET").toStr) with
    | error e =>
      rw [hg] at hok
      exact absurd hok (by simp)
    | ok resource =>
      rw [hg] at hok
      dsimp only at hok
      by_cases hcond : (resource.HasExplicitExpiration && cr.IsCacheable) = true
      · rw [if_pos hcond] at hok
        injection hok with hres
        subst hres
        refine ⟨rfl, ?_⟩
        have h2 := hcond
        simp only [Bool.and_eq_true] at h2
        exact h2.1
      · rw [if_neg hcond] at hok
        exact absurd hok (by simp)
  · intro hg hexp
    rw [hl, hg]
    simp [hexp, ErrNotFoundInCache]
  · intro hg
    rw [hl, hg]

theorem lookup_head_falls_back_to_get_witness :
    (lookup wCache7 wCR7 = Except.ok wRes7 →
        wCache7.Retrieve ((wCR7.Key.ForMethod "GET").toStr) = Except.ok wRes7
          ∧ wRes7.HasExplicitExpiration = true)
    ∧ (wCache7.Retrieve ((wCR7.Key.ForMethod "GET").toStr) = Except.ok wRes7 →
        wRes7.HasExplicitExpiration = false →
        lookup wCache7 wCR7 = Except.error CacheErr.notFound)
    ∧ (wCache7.Retrieve ((wCR7.Key.ForMethod "GET").toStr) = Except.error CacheErr.notFound →
        lookup wCache7 wCR7 = Except.error CacheErr.notFound) :=
  lookup_head_falls_back_to_get wCache7 wCR7 wRes7 rfl rfl

/-- getD is unchanged by set at a different index. -/
theorem listGetD_set_ne {α : Type} (l : List α) (i j : Nat) (a d : α) (hne : i ≠ j) :
    (l.set j a).getD i d = l.getD i d := by
  induction l generalizing i j with
  | nil => simp
  | cons x xs ih =>
    cases j with
    | zero =>
      cases i with
      | zero => exact absurd rfl hne
      | succ i2 => simp
    | succ j2 =>
      cases i with
      | zero => simp
      | succ i2 =>
        simp only [List.set_cons_succ, List.getD_cons_succ]
        exact ih i2 j2 (fun h => hne (by rw [h]))

/-- Writing a different cell leaves a read unchanged. -/
theorem HHeap_read_write_ne (i j : Nat) (hne : i ≠ j) (h : HHeap) (m : Headers) :
    (h.write j m).read i = h.read i := by
  unfold HHeap.write HHeap.read
  exact listGetD_set_ne h i j m [] hne

/-- Reading below the length is unchanged by appending a cell. -/
theorem HHeap_read_app (i : Nat) (h : HHeap) (hi : i < h.length) (m : Headers) :
    HHeap.read (h ++ [m]) i = h.read i := by
  unfold HHeap.read
  exact List.getD_append _ _ _ _ hi

/-- Claim C9: on every success, the header map newResponseParameters hands
back is a freshly allocated cell, distinct from the resource header-map
cell, and the resource cell is left unchanged, so mutating the returned
headers cannot alter the stored resource headers. -/
theorem newResponseParametersH_fresh_copy (shared : Bool) (cr : cacheRequest)
    (resource : Resource) (hp : HHeap) (hdrRef : Nat) (hp2 : HHeap) (j : Nat)
    (hvalid : hdrRef < hp.length)
    (hok : newResponseParametersH shared cr resource hp hdrRef = Except.ok (hp2, j)) :
    j ≠ hdrRef ∧ hp2.read hdrRef = hp.read hdrRef := by
  have hne : hdrRef ≠ hp.length := Nat.ne_of_lt hvalid
  unfold newResponseParametersH at hok
  cases hage : resource.Age with
  | error e =>
    rw [hage] at hok
    exact absurd hok (by simp)
  | ok age =>
    rw [hage] at hok
    dsimp only [HHeap.alloc] at hok
    injection hok with hpair
    injection hpair with h1 h2
    subst h1
    subst h2
    refine ⟨Ne.symm hne, ?_⟩
    repeat'
      first
      | rw [HHeap_read_write_ne hdrRef hp.length hne]
      | rw [HHeap_read_app hdrRef hp hvalid]
      | split

theorem newResponseParametersH_fresh_copy_witness :
    wOut9.2 ≠ 0 ∧ wOut9.1.read 0 = wHeap9.read 0 :=
  newResponseParametersH_fresh_copy true exCRPlain wRes9 wHeap9 0 wOut9.1 wOut9.2
    (by decide) rfl
